import Mathlib

/-!
Verification development for the catalog worker (src/index.ts): a shallow
embedding of its key canonicalization, route matching, resolvers and HTTP
response construction, together with theorems about the specified behaviour.

Modelling conventions:
* JavaScript strings are Lean `String`s processed as `List Char`.
* The key-value store and the blob store are functions `String → Option _`
  (a JS `null` result is `none`); a stored empty string is `some ""`,
  which the code's falsiness checks (`if (!v)`) treat like `null`.
* HTTP header names are case-insensitive; the model normalizes every header
  name to lower case (as the `Headers` class does) and keeps headers as an
  association list with overwrite-on-set semantics.
* The ECMAScript builtins `decodeURIComponent`, `encodeURIComponent` and
  `JSON.parse` are modelled from their specifications (URI `Decode` with an
  empty reserved set and strict UTF-8 validation; `Encode` with the
  `uriUnescaped` set; the JSON grammar with last-duplicate-wins objects).
  A lone-surrogate `\uXXXX` escape inside a JSON string is modelled as
  U+FFFD since Lean `Char` has no lone surrogates.
* `new URL(input, origin).toString()` is modelled from the WHATWG URL
  Standard for a base that is a bare origin: the input is trimmed and freed
  of tabs/newlines, split into path, query and fragment, the path is split
  on `/` and `\`, dot and dot-dot segments (including their `%2e` spellings)
  are normalized away, each remaining segment is percent-encoded with the
  path percent-encode set, and the result is appended to the origin. The
  worker's input always starts with a single slash (the encoded kind of a
  matched route is nonempty and slash-free), so the authority-relative `//`
  form cannot arise; the model treats such an input as a plain path.
* Thrown JS exceptions (`URIError` from `decodeURIComponent`, `TypeError`
  from a property access on `null`) are modelled with `Except JsError`.
-/

namespace CatalogWorker

/-- JS exceptions the handler can raise. -/
inductive JsError where
  | uriErr
  | typeErr
deriving DecidableEq

/-! ## Basic character-list utilities -/

/-- `s.startsWith p` on character lists. -/
def startsWithChars : List Char → List Char → Bool
  | _, [] => true
  | [], _ :: _ => false
  | c :: cs, p :: ps => c == p && startsWithChars cs ps

/-- `s.endsWith p` on character lists. -/
def endsWithChars (l p : List Char) : Bool :=
  startsWithChars l.reverse p.reverse

/-! ## Key canonicalization (`keyJoin`)

`keyJoin(...parts)` in the source is
`parts.join("/").replace(/\\/g,"/").replace(/\/+/,"/").replace(/\/{2,}/g,"/").replace(/^\//,"")`.
Each regex replacement is embedded as one pass below, in the same order. -/

/-- `parts.join("/")` on character lists. -/
def joinParts : List (List Char) → List Char
  | [] => []
  | [p] => p
  | p :: ps => p ++ '/' :: joinParts ps

/-- `.replace(/\\/g, "/")`: every backslash becomes a forward slash. -/
def backslashToSlash (l : List Char) : List Char :=
  l.map (fun c => if c = '\\' then '/' else c)

/-- `.replace(/\/+/, "/")` (non-global): the first maximal run of slashes is
replaced by a single slash; the rest of the string is untouched. -/
def replaceFirstRun : List Char → List Char
  | [] => []
  | c :: rest =>
    if c = '/' then '/' :: rest.dropWhile (· == '/')
    else c :: replaceFirstRun rest

/-- `.replace(/\/{2,}/g, "/")`: every run of two or more slashes collapses
to a single slash. -/
def collapseSlashes : List Char → List Char
  | [] => []
  | [c] => [c]
  | a :: b :: rest =>
    if a = '/' ∧ b = '/' then collapseSlashes (b :: rest)
    else a :: collapseSlashes (b :: rest)

/-- `.replace(/^\//, "")`: one leading slash, if any, is removed. -/
def stripLeadSlash : List Char → List Char
  | [] => []
  | c :: rest => if c = '/' then rest else c :: rest

/-- The whole `keyJoin` pipeline on character lists. -/
def keyJoinChars (l : List Char) : List Char :=
  stripLeadSlash (collapseSlashes (replaceFirstRun (backslashToSlash l)))

/-- `keyJoin(...parts)` from the source. -/
def keyJoin (parts : List String) : String :=
  ⟨keyJoinChars (joinParts (parts.map String.data))⟩

/-- No backslash occurs. -/
def noBackslash (l : List Char) : Bool :=
  l.all (· != '\\')

/-- No two adjacent slashes occur. -/
def noDoubleSlash : List Char → Bool
  | a :: b :: rest => !(a == '/' && b == '/') && noDoubleSlash (b :: rest)
  | _ => true

/-- The list does not start with a slash. -/
def noLeadSlash : List Char → Bool
  | [] => true
  | c :: _ => !(c == '/')

/-- A canonical storage key: no backslash, no leading slash, no run of
consecutive slashes (the §3 invariant). -/
def canonicalKey (s : String) : Bool :=
  noBackslash s.data && noDoubleSlash s.data && noLeadSlash s.data

/-! ## `decodeURIComponent`

Modelled from the ECMAScript `Decode` abstract operation with an empty
reserved set: each `%HH` escape contributes one octet; an octet ≥ 0x80 must
start a maximal valid UTF-8 sequence whose continuation octets are themselves
escapes; any malformed escape or invalid octet sequence throws `URIError`
(here: `none`). Unescaped characters pass through unchanged. -/

/-- Value of one hexadecimal digit. -/
def hexVal (c : Char) : Option Nat :=
  if '0' ≤ c ∧ c ≤ '9' then some (c.toNat - 48)
  else if 'A' ≤ c ∧ c ≤ 'F' then some (c.toNat - 55)
  else if 'a' ≤ c ∧ c ≤ 'f' then some (c.toNat - 87)
  else none

/-- One token of a URI component: an unescaped character or one `%HH` octet. -/
inductive UriTok where
  | raw (c : Char)
  | oct (b : Nat)

/-- Split a string into URI tokens; fails on a malformed `%` escape. -/
def uriTokens : List Char → Option (List UriTok)
  | [] => some []
  | '%' :: h1 :: h2 :: rest => do
    let a ← hexVal h1
    let b ← hexVal h2
    let ts ← uriTokens rest
    pure (UriTok.oct (16 * a + b) :: ts)
  | '%' :: _ => none
  | c :: rest => (uriTokens rest).map (UriTok.raw c :: ·)

/-- Decode the token stream: octets are grouped into valid UTF-8 sequences
(strict: no overlong form, no surrogate, maximum U+10FFFF). -/
def decTokens : List UriTok → Option (List Char)
  | [] => some []
  | UriTok.raw c :: rest => (decTokens rest).map (c :: ·)
  | UriTok.oct b :: rest =>
    if b < 128 then (decTokens rest).map (Char.ofNat b :: ·)
    else if b < 194 then none
    else if b < 224 then
      match rest with
      | UriTok.oct b2 :: rest2 =>
        if 128 ≤ b2 ∧ b2 < 192 then
          (decTokens rest2).map (Char.ofNat ((b - 192) * 64 + (b2 - 128)) :: ·)
        else none
      | _ => none
    else if b < 240 then
      match rest with
      | UriTok.oct b2 :: UriTok.oct b3 :: rest2 =>
        if (128 ≤ b2 ∧ b2 < 192) ∧ (128 ≤ b3 ∧ b3 < 192) then
          let v := (b - 224) * 4096 + (b2 - 128) * 64 + (b3 - 128)
          if 2048 ≤ v ∧ ¬(55296 ≤ v ∧ v < 57344) then
            (decTokens rest2).map (Char.ofNat v :: ·)
          else none
        else none
      | _ => none
    else if b < 245 then
      match rest with
      | UriTok.oct b2 :: UriTok.oct b3 :: UriTok.oct b4 :: rest2 =>
        if (128 ≤ b2 ∧ b2 < 192) ∧ (128 ≤ b3 ∧ b3 < 192) ∧ (128 ≤ b4 ∧ b4 < 192) then
          let v := (b - 240) * 262144 + (b2 - 128) * 4096 + (b3 - 128) * 64 + (b4 - 128)
          if 65536 ≤ v ∧ v < 1114112 then
            (decTokens rest2).map (Char.ofNat v :: ·)
          else none
        else none
      | _ => none
    else none

/-- `decodeURIComponent`; `none` models a thrown `URIError`. -/
def decodeURIComponent (s : String) : Option String :=
  ((uriTokens s.data).bind decTokens).map (⟨·⟩)

/-! ## `encodeURIComponent`

Modelled from the ECMAScript `Encode` abstract operation with the
`uriUnescaped` set; every other character is written as the percent-escaped
octets of its UTF-8 encoding, with upper-case hex digits. -/

/-- The `uriUnescaped` character set of `encodeURIComponent`. -/
def uriUnescaped (c : Char) : Bool :=
  if ('A' ≤ c ∧ c ≤ 'Z') ∨ ('a' ≤ c ∧ c ≤ 'z') ∨ ('0' ≤ c ∧ c ≤ '9') ∨
      c ∈ ['-', '_', '.', '!', '~', '*', Char.ofNat 39, '(', ')'] then true
  else false

/-- UTF-8 octets of one character. -/
def utf8Bytes (c : Char) : List Nat :=
  let v := c.toNat
  if v < 128 then [v]
  else if v < 2048 then [192 + v / 64, 128 + v % 64]
  else if v < 65536 then [224 + v / 4096, 128 + (v / 64) % 64, 128 + v % 64]
  else [240 + v / 262144, 128 + (v / 4096) % 64, 128 + (v / 64) % 64, 128 + v % 64]

/-- Upper-case hexadecimal digit. -/
def hexDigitU (n : Nat) : Char :=
  if n < 10 then Char.ofNat (48 + n) else Char.ofNat (55 + n)

/-- `%HH` escape of one octet. -/
def pctEscape (b : Nat) : List Char :=
  ['%', hexDigitU (b / 16), hexDigitU (b % 16)]

/-- `encodeURIComponent`. -/
def encodeURIComponent (s : String) : String :=
  ⟨s.data.foldr
    (fun c acc =>
      (if uriUnescaped c then [c] else (utf8Bytes c).flatMap pctEscape) ++ acc) []⟩

/-! ## `new URL(input, origin).toString()`

Modelled from the WHATWG URL Standard, specialized to a base URL that is a
bare https origin (the worker passes `baseUrl.origin`): parse the relative
reference `input` (trim, strip tab/newline, split off query and fragment,
split the path on `/` and `\`, normalize `.`/`..` segments including their
`%2e` spellings, percent-encode each kept segment with the path
percent-encode set, likewise encode query and fragment with their sets) and
serialize it after the origin. -/

/-- Remove leading and trailing C0 controls and spaces. -/
def c0Trim (l : List Char) : List Char :=
  ((l.dropWhile (fun c => Nat.ble c.toNat 32)).reverse.dropWhile
    (fun c => Nat.ble c.toNat 32)).reverse

/-- Remove every ASCII tab, LF and CR. -/
def stripTabNl (l : List Char) : List Char :=
  l.filter (fun c => !(c.toNat == 9 || c.toNat == 10 || c.toNat == 13))

/-- The C0-control percent-encode set: C0 controls and code points above
U+007E. -/
def inC0PctSet (c : Char) : Bool :=
  Nat.ble c.toNat 31 || Nat.ble 127 c.toNat

/-- The fragment percent-encode set. -/
def inFragmentSet (c : Char) : Bool :=
  inC0PctSet c || c == ' ' || c == '"' || c == '<' || c == '>' || c.toNat == 96

/-- The special-query percent-encode set (https is a special scheme). -/
def inSpecialQuerySet (c : Char) : Bool :=
  inC0PctSet c || c == ' ' || c == '"' || c == '#' || c == '<' || c == '>' || c.toNat == 39

/-- The path percent-encode set. -/
def inPathPctSet (c : Char) : Bool :=
  inFragmentSet c || c == '?' || c.toNat == 123 || c.toNat == 125

/-- Percent-encode the characters of `l` that lie in the set `inSet`. -/
def encodeWith (inSet : Char → Bool) (l : List Char) : List Char :=
  l.flatMap (fun c =>
    if inSet c then (utf8Bytes c).flatMap pctEscape else [c])

/-- Split at the first `#`: the part before it and the fragment after it. -/
def splitFragment : List Char → List Char × Option (List Char)
  | [] => ([], none)
  | c :: cs =>
    if c = '#' then ([], some cs)
    else
      let p := splitFragment cs
      (c :: p.1, p.2)

/-- Split at the first `?`: the part before it and the query after it. -/
def splitQuery : List Char → List Char × Option (List Char)
  | [] => ([], none)
  | c :: cs =>
    if c = '?' then ([], some cs)
    else
      let p := splitQuery cs
      (c :: p.1, p.2)

/-- Split a path on `/` and `\` (both are separators in a special scheme);
`n` separators yield `n + 1` segments. -/
def splitSegs : List Char → List (List Char)
  | [] => [[]]
  | c :: cs =>
    if c = '/' ∨ c = '\\' then [] :: splitSegs cs
    else
      match splitSegs cs with
      | s :: rest => (c :: s) :: rest
      | [] => [[c]]

/-- A single-dot path segment: `.` or a `%2e` spelling, case-insensitive. -/
def isSingleDot (seg : List Char) : Bool :=
  seg.map Char.toLower == ['.'] || seg.map Char.toLower == ['%', '2', 'e']

/-- A double-dot path segment: `..` or a `%2e` spelling, case-insensitive. -/
def isDoubleDot (seg : List Char) : Bool :=
  seg.map Char.toLower == ['.', '.'] || seg.map Char.toLower == ['.', '%', '2', 'e'] ||
    seg.map Char.toLower == ['%', '2', 'e', '.'] ||
    seg.map Char.toLower == ['%', '2', 'e', '%', '2', 'e']

/-- The path-state loop of the URL parser over the split segments, with
`acc` the path built so far in reverse. A double dot shortens the path; a
dot or double dot in final position leaves a trailing empty segment; every
other segment is kept percent-encoded. -/
def procSegs (acc : List (List Char)) : List (List Char) → List (List Char)
  | [] => acc.reverse
  | [seg] =>
    if isDoubleDot seg then (([] : List Char) :: acc.drop 1).reverse
    else if isSingleDot seg then (([] : List Char) :: acc).reverse
    else (encodeWith inPathPctSet seg :: acc).reverse
  | seg :: rest =>
    if isDoubleDot seg then procSegs (acc.drop 1) rest
    else if isSingleDot seg then procSegs acc rest
    else procSegs (encodeWith inPathPctSet seg :: acc) rest

/-- Serialize the relative reference `l` against a bare origin: everything
`toString` appends after the origin. -/
def serializeRefChars (l : List Char) : List Char :=
  let t := stripTabNl (c0Trim l)
  let f := splitFragment t
  let q := splitQuery f.1
  let segs := match q.1 with
    | c :: cs => if c = '/' ∨ c = '\\' then splitSegs cs else splitSegs q.1
    | [] => [[]]
  let outSegs := procSegs [] segs
  outSegs.flatMap (fun s => '/' :: s) ++
    (match q.2 with
     | some qs => '?' :: encodeWith inSpecialQuerySet qs
     | none => []) ++
    (match f.2 with
     | some fs => '#' :: encodeWith inFragmentSet fs
     | none => [])

/-- The part of `new URL(input, origin).toString()` after the origin. -/
def serializeRef (input : String) : String :=
  ⟨serializeRefChars input.data⟩

/-- `new URL(input, origin).toString()` for a bare-origin base. -/
def newURLString (input origin : String) : String :=
  origin ++ serializeRef input

/-! ## Route matching

The three route regexes of `fetch` — `^\/([^\/]+)\/registry\.json$`,
`^\/([^\/]+)\/([^\/]+)\/latest\/(.+)$` and
`^\/([^\/]+)\/([^\/]+)\/([^\/]+)\/(.+)$` — matched structurally. A JS `.`
(no `s` flag) matches anything but a line terminator; `[^/]` matches
anything but a slash. -/

/-- Split off the longest slash-free segment: returns that segment and the
remainder (which, if nonempty, starts with a slash). -/
def takeSeg : List Char → List Char × List Char
  | [] => ([], [])
  | c :: cs =>
    if c = '/' then ([], c :: cs)
    else
      let p := takeSeg cs
      (c :: p.1, p.2)

/-- JS regex line terminators, which `.` does not match. -/
def lineTerm (c : Char) : Bool :=
  c == Char.ofNat 10 || c == Char.ofNat 13 || c == Char.ofNat 8232 || c == Char.ofNat 8233

/-- What `(.+)$` accepts: nonempty, no line terminator. -/
def dotPlus (l : List Char) : Bool :=
  !l.isEmpty && l.all (fun c => !lineTerm c)

/-- One literal `/` of a route regex: require a leading slash and match the
rest with `k`. -/
def afterSeg (k : List Char → Option α) : List Char → Option α
  | [] => none
  | c :: cs => if c = '/' then k cs else none

/-- `apiPath.match(/^\/([^\/]+)\/registry\.json$/)`, returning the raw
capture group. -/
def matchRegistry (s : String) : Option String :=
  afterSeg
    (fun cs =>
      let p := takeSeg cs
      if !p.1.isEmpty ∧ p.2 = ("/registry.json").data then some ⟨p.1⟩ else none)
    s.data

/-- `apiPath.match(/^\/([^\/]+)\/([^\/]+)\/latest\/(.+)$/)`, returning the
raw capture groups. -/
def matchLatest (s : String) : Option (String × String × String) :=
  afterSeg
    (fun cs =>
      let p1 := takeSeg cs
      afterSeg
        (fun cs2 =>
          let p2 := takeSeg cs2
          afterSeg
            (fun cs3 =>
              let p3 := takeSeg cs3
              afterSeg
                (fun fcs =>
                  if !p1.1.isEmpty ∧ !p2.1.isEmpty ∧ p3.1 = ("latest").data ∧ dotPlus fcs then
                    some (⟨p1.1⟩, ⟨p2.1⟩, ⟨fcs⟩)
                  else none)
                p3.2)
            p2.2)
        p1.2)
    s.data

/-- `apiPath.match(/^\/([^\/]+)\/([^\/]+)\/([^\/]+)\/(.+)$/)`, returning the
raw capture groups. -/
def matchArtifact (s : String) : Option (String × String × String × String) :=
  afterSeg
    (fun cs =>
      let p1 := takeSeg cs
      afterSeg
        (fun cs2 =>
          let p2 := takeSeg cs2
          afterSeg
            (fun cs3 =>
              let p3 := takeSeg cs3
              afterSeg
                (fun fcs =>
                  if !p1.1.isEmpty ∧ !p2.1.isEmpty ∧ !p3.1.isEmpty ∧ dotPlus fcs then
                    some (⟨p1.1⟩, ⟨p2.1⟩, ⟨p3.1⟩, ⟨fcs⟩)
                  else none)
                p3.2)
            p2.2)
        p1.2)
    s.data

/-! ## `JSON.parse`

Modelled from the JSON grammar `JSON.parse` accepts: optional whitespace
(space, tab, LF, CR) around tokens; `null`/`true`/`false`; numbers with an
optional sign, no leading zeros, optional fraction and exponent; strings with
the standard escapes; arrays; objects (a duplicated key keeps the later
value, as property assignment does). Numbers are kept exactly as a signed
mantissa and a decimal exponent. The parser is fuelled; the fuel chosen in
`jsonParse` exceeds the recursion any input of that length can need. -/

/-- A parsed JSON value. -/
inductive JValue where
  | jnull
  | jbool (b : Bool)
  | jnum (neg : Bool) (mantissa : Nat) (exp10 : Int)
  | jstr (s : String)
  | jarr (elems : List JValue)
  | jobj (fields : List (String × JValue))

/-- JSON whitespace. -/
def jsonWs (c : Char) : Bool :=
  c == ' ' || c == Char.ofNat 9 || c == Char.ofNat 10 || c == Char.ofNat 13

/-- Drop leading JSON whitespace. -/
def skipWs (l : List Char) : List Char :=
  l.dropWhile jsonWs

/-- Is `c` a decimal digit? -/
def isDigitCh (c : Char) : Bool :=
  Nat.ble 48 c.toNat && Nat.ble c.toNat 57

/-- Take a maximal run of decimal digits (as digit values). -/
def takeDigits : List Char → List Nat × List Char
  | [] => ([], [])
  | c :: cs =>
    if isDigitCh c then
      let p := takeDigits cs
      ((c.toNat - 48) :: p.1, p.2)
    else ([], c :: cs)

/-- Digits to a natural number, most significant first. -/
def digitsToNat (ds : List Nat) : Nat :=
  ds.foldl (fun a d => 10 * a + d) 0

/-- Parse a JSON number starting at `l` (first char already known to be `-`
or a digit). Yields `(neg, mantissa, exp10)` with value
`±mantissa · 10^exp10`. -/
def parseNumber (l : List Char) : Option (JValue × List Char) :=
  let signed := match l with
    | '-' :: cs => (true, cs)
    | _ => (false, l)
  let neg := signed.1
  match signed.2 with
  | c :: cs =>
    if c == '0' ∨ isDigitCh c then
      let ip : List Nat × List Char :=
        if c == '0' then ([0], cs) else takeDigits (c :: cs)
      let fp : List Nat × List Char :=
        match ip.2 with
        | '.' :: cs2 =>
          let d := takeDigits cs2
          if d.1.isEmpty then ([], '.' :: cs2) else d
        | r => ([], r)
      let fracOk : Bool :=
        match ip.2 with
        | '.' :: cs2 => !(takeDigits cs2).1.isEmpty
        | _ => true
      if fracOk then
        let rest1 := if fp.1.isEmpty then ip.2 else fp.2
        let expPart : Option (Int × List Char) :=
          match rest1 with
          | e :: cs3 =>
            if e == 'e' ∨ e == 'E' then
              let se := match cs3 with
                | '+' :: cs4 => (1, cs4)
                | '-' :: cs4 => (-1, cs4)
                | _ => ((1 : Int), cs3)
              let d := takeDigits se.2
              if d.1.isEmpty then none
              else some (se.1 * Int.ofNat (digitsToNat d.1), d.2)
            else some (0, e :: cs3)
          | [] => some (0, [])
        match expPart with
        | some (ex, rest2) =>
          some (JValue.jnum neg (digitsToNat (ip.1 ++ fp.1)) (ex - Int.ofNat fp.1.length), rest2)
        | none => none
      else none
    else none
  | [] => none

/-- Parse four hex digits. -/
def parseHex4 : List Char → Option (Nat × List Char)
  | a :: b :: c :: d :: rest => do
    let va ← hexVal a
    let vb ← hexVal b
    let vc ← hexVal c
    let vd ← hexVal d
    pure (((va * 16 + vb) * 16 + vc) * 16 + vd, rest)
  | _ => none

/-- Parse the body of a JSON string after the opening quote, returning its
characters and the input after the closing quote. A `\uXXXX` high surrogate
followed by an escaped low surrogate forms one character; a lone surrogate
becomes U+FFFD (Lean characters cannot hold lone surrogates). -/
def parseStringBody : Nat → List Char → Option (List Char × List Char)
  | 0, _ => none
  | _, [] => none
  | fuel + 1, c :: cs =>
    if c == '"' then some ([], cs)
    else if c == '\\' then
      match cs with
      | [] => none
      | e :: cs2 =>
        if e == '"' ∨ e == '\\' ∨ e == '/' then
          (parseStringBody fuel cs2).map (fun p => (e :: p.1, p.2))
        else if e == 'b' then
          (parseStringBody fuel cs2).map (fun p => (Char.ofNat 8 :: p.1, p.2))
        else if e == 'f' then
          (parseStringBody fuel cs2).map (fun p => (Char.ofNat 12 :: p.1, p.2))
        else if e == 'n' then
          (parseStringBody fuel cs2).map (fun p => (Char.ofNat 10 :: p.1, p.2))
        else if e == 'r' then
          (parseStringBody fuel cs2).map (fun p => (Char.ofNat 13 :: p.1, p.2))
        else if e == 't' then
          (parseStringBody fuel cs2).map (fun p => (Char.ofNat 9 :: p.1, p.2))
        else if e == 'u' then
          match parseHex4 cs2 with
          | none => none
          | some (n, cs3) =>
            if 55296 ≤ n ∧ n < 56320 then
              match cs3 with
              | '\\' :: 'u' :: cs4 =>
                match parseHex4 cs4 with
                | some (m, cs5) =>
                  if 56320 ≤ m ∧ m < 57344 then
                    let v := 65536 + (n - 55296) * 1024 + (m - 56320)
                    (parseStringBody fuel cs5).map (fun p => (Char.ofNat v :: p.1, p.2))
                  else
                    (parseStringBody fuel cs3).map (fun p => (Char.ofNat 65533 :: p.1, p.2))
                | none =>
                  (parseStringBody fuel cs3).map (fun p => (Char.ofNat 65533 :: p.1, p.2))
              | _ =>
                (parseStringBody fuel cs3).map (fun p => (Char.ofNat 65533 :: p.1, p.2))
            else if 56320 ≤ n ∧ n < 57344 then
              (parseStringBody fuel cs3).map (fun p => (Char.ofNat 65533 :: p.1, p.2))
            else
              (parseStringBody fuel cs3).map (fun p => (Char.ofNat n :: p.1, p.2))
        else none
    else if c.toNat < 32 then none
    else (parseStringBody fuel cs).map (fun p => (c :: p.1, p.2))

mutual

/-- Parse one JSON value (leading whitespace allowed). -/
def parseVal : Nat → List Char → Option (JValue × List Char)
  | 0, _ => none
  | fuel + 1, l =>
    match skipWs l with
    | [] => none
    | c :: cs =>
      if c == 'n' then
        match cs with
        | 'u' :: 'l' :: 'l' :: rest => some (JValue.jnull, rest)
        | _ => none
      else if c == 't' then
        match cs with
        | 'r' :: 'u' :: 'e' :: rest => some (JValue.jbool true, rest)
        | _ => none
      else if c == 'f' then
        match cs with
        | 'a' :: 'l' :: 's' :: 'e' :: rest => some (JValue.jbool false, rest)
        | _ => none
      else if c == '"' then
        (parseStringBody (fuel + 1) cs).map (fun p => (JValue.jstr ⟨p.1⟩, p.2))
      else if c == '[' then
        match skipWs cs with
        | ']' :: rest => some (JValue.jarr [], rest)
        | _ => (parseElems fuel cs).map (fun p => (JValue.jarr p.1, p.2))
      else if c == '{' then
        match skipWs cs with
        | '}' :: rest => some (JValue.jobj [], rest)
        | _ => (parseMembers fuel cs).map (fun p => (JValue.jobj p.1, p.2))
      else if c == '-' ∨ isDigitCh c then parseNumber (c :: cs)
      else none

/-- Parse the elements of a nonempty JSON array (after `[`), consuming the
closing bracket. -/
def parseElems : Nat → List Char → Option (List JValue × List Char)
  | 0, _ => none
  | fuel + 1, l => do
    let p ← parseVal fuel l
    match skipWs p.2 with
    | ',' :: r2 => (parseElems fuel r2).map (fun q => (p.1 :: q.1, q.2))
    | ']' :: r2 => some ([p.1], r2)
    | _ => none

/-- Parse the members of a nonempty JSON object (after `{`), consuming the
closing brace. -/
def parseMembers : Nat → List Char → Option (List (String × JValue) × List Char)
  | 0, _ => none
  | fuel + 1, l =>
    match skipWs l with
    | '"' :: cs => do
      let k ← parseStringBody (fuel + 1) cs
      match skipWs k.2 with
      | ':' :: r2 => do
        let v ← parseVal fuel r2
        match skipWs v.2 with
        | ',' :: r4 => (parseMembers fuel r4).map (fun q => ((⟨k.1⟩, v.1) :: q.1, q.2))
        | '}' :: r4 => some ([(⟨k.1⟩, v.1)], r4)
        | _ => none
      | _ => none
    | _ => none

end

/-- `JSON.parse`; `none` models a thrown `SyntaxError`. -/
def jsonParse (s : String) : Option JValue :=
  match parseVal (4 * s.data.length + 4) s.data with
  | some (v, rest) => if skipWs rest = [] then some v else none
  | none => none

/-- Property lookup in the object produced by `JSON.parse`: a duplicated key
keeps the later value. -/
def objGet (fields : List (String × JValue)) (name : String) : Option JValue :=
  match fields with
  | [] => none
  | (k, v) :: rest =>
    match objGet rest name with
    | some w => some w
    | none => if k = name then some v else none

/-- JS property access `v.name`: throws `TypeError` on `null`; yields the
field on an object; `undefined` (`none`) on any other value. -/
def propAccess (v : JValue) (name : String) : Except JsError (Option JValue) :=
  match v with
  | JValue.jnull => Except.error JsError.typeErr
  | JValue.jobj fields => Except.ok (objGet fields name)
  | _ => Except.ok none

/-- JS truthiness of a possibly-`undefined` JSON value. -/
def truthy : Option JValue → Bool
  | none => false
  | some JValue.jnull => false
  | some (JValue.jbool b) => b
  | some (JValue.jnum _ m _) => !(m == 0)
  | some (JValue.jstr s) => !(s == "")
  | some (JValue.jarr _) => true
  | some (JValue.jobj _) => true

/-- JS string conversion used by the template literal on `latest.version`.
Exact for `null`, booleans and strings (the only cases the claims reach);
numbers and compounds are rendered approximately. -/
def jsToString : JValue → String
  | JValue.jnull => "null"
  | JValue.jbool b => if b then "true" else "false"
  | JValue.jstr s => s
  | JValue.jnum neg m e =>
    (if neg then "-" else "") ++ toString m ++
      (if e == 0 then "" else "e" ++ toString e)
  | JValue.jarr _ => ""
  | JValue.jobj _ => "[object Object]"

/-! ## Responses, stores, environment -/

/-- A response body: empty (`null`), a relayed text (registry), a structured
JSON payload (the `json` helper — `JSON.stringify` is abstracted to the
structured value), or a relayed blob stream (artifact). -/
inductive Body where
  | empty
  | str (s : String)
  | jsonBody (v : JValue)
  | blob (b : String)

/-- An HTTP response: status, headers (names lower-cased), body. -/
structure Response where
  status : Nat
  headers : List (String × String)
  body : Body

/-- Header lookup by (lower-case) name. -/
def hget : List (String × String) → String → Option String
  | [], _ => none
  | (k, v) :: rest, n => if k = n then some v else hget rest n

/-- `Headers.set`: overwrite an existing entry or append. -/
def hset (hs : List (String × String)) (n v : String) : List (String × String) :=
  if hs.any (fun p => p.1 == n) then hs.map (fun p => if p.1 == n then (n, v) else p)
  else hs ++ [(n, v)]

/-- The fixed `CORS_HEADERS` constant (names lower-cased by the model). -/
def CORS_HEADERS : List (String × String) :=
  [("access-control-allow-origin", "*"),
   ("access-control-allow-methods", "GET,POST,OPTIONS"),
   ("access-control-allow-headers", "Content-Type, Authorization, X-Hub-Signature-256")]

/-- The `json(data, init)` helper: a JSON body, `content-type` then the CORS
headers (no caller passes extra headers). -/
def jsonResponse (v : JValue) (status : Nat) : Response :=
  Response.mk status (("content-type", "application/json; charset=utf-8") :: CORS_HEADERS)
    (Body.jsonBody v)

/-- `notFound()`. -/
def notFoundResp : Response :=
  jsonResponse (JValue.jobj [("error", JValue.jstr "not_found")]) 404

/-- The `invalid_latest` 500 error. -/
def invalidLatestResp (key : String) : Response :=
  jsonResponse (JValue.jobj [("error", JValue.jstr "invalid_latest"), ("key", JValue.jstr key)]) 500

/-- A stored blob-store object: body bytes, strong etag, and the stored
content type, the only HTTP metadatum the worker reads back. -/
structure R2Object where
  body : String
  httpEtag : String
  contentType : Option String

/-- `obj.writeHttpMetadata(headers)`: copies the stored content type, when
present, into the headers. -/
def writeHttpMetadata (obj : R2Object) (hs : List (String × String)) : List (String × String) :=
  match obj.contentType with
  | some ct => hset hs "content-type" ct
  | none => hs

/-- The worker environment bindings the handlers read. -/
structure EnvCfg where
  worker : String
  ingestEnabled : String

/-! ## The three resolvers and the ingest gate -/

/-- `serveRegistry`. The KV read yields `none` for a missing key; the
`if (!v)` falsiness check also treats a stored empty string as missing. -/
def serveRegistry (kv : String → Option String) (kind : String) : Response :=
  let key := keyJoin ["catalog", kind, "registry.json"]
  match kv key with
  | none => notFoundResp
  | some v =>
    if v = "" then notFoundResp
    else
      Response.mk 200
        (("content-type", "application/json; charset=utf-8") ::
          ("cache-control", "public, max-age=60") :: CORS_HEADERS)
        (Body.str v)

/-- `serveLatestAlias`. `JSON.parse` failure is the 500 `invalid_latest`
response; the later `latest.version` accesses go through `propAccess`, so a
stored top-level `null` raises `TypeError`. The redirect location is
`new URL("/enc(kind)/enc(id)/enc(version)/file", origin).toString()`,
modelled by `newURLString` (WHATWG resolution against the request's
origin). -/
def serveLatestAlias (origin : String) (kv : String → Option String)
    (kind idv file : String) : Except JsError Response :=
  let latestKey := keyJoin ["catalog", kind, idv, "latest.json"]
  match kv latestKey with
  | none => Except.ok notFoundResp
  | some s =>
    if s = "" then Except.ok notFoundResp
    else
      match jsonParse s with
      | none => Except.ok (invalidLatestResp latestKey)
      | some latest =>
        match propAccess latest "version" with
        | Except.error e => Except.error e
        | Except.ok verOpt =>
          if truthy verOpt then
            let ver := jsToString (verOpt.getD JValue.jnull)
            let urlPath := "/" ++ encodeURIComponent kind ++ "/" ++
              encodeURIComponent idv ++ "/" ++ encodeURIComponent ver ++ "/" ++ file
            let loc := newURLString urlPath origin
            Except.ok (Response.mk 302
              (("location", loc) :: ("cache-control", "public, max-age=30") :: CORS_HEADERS)
              Body.empty)
          else Except.ok (invalidLatestResp latestKey)

/-- The content-type fallback of `serveArtifact`, applied only when the
store provides none. -/
def fallbackContentType (file : String) : String :=
  if endsWithChars file.data (".json").data then "application/json; charset=utf-8"
  else if endsWithChars file.data (".yaml").data || endsWithChars file.data (".yml").data then
    "text/yaml; charset=utf-8"
  else "application/octet-stream"

/-- `serveArtifact`: relay the blob with its etag, the immutable cache
policy, the CORS headers, and the content-type fallback. -/
def serveArtifact (r2 : String → Option R2Object)
    (kind idv version file : String) : Response :=
  let key := keyJoin ["catalog", kind, idv, version, file]
  match r2 key with
  | none => notFoundResp
  | some obj =>
    let h0 := writeHttpMetadata obj []
    let h1 := hset h0 "etag" obj.httpEtag
    let h2 := hset h1 "cache-control" "public, max-age=31536000, immutable"
    let h3 := CORS_HEADERS.foldl (fun acc p => hset acc p.1 p.2) h2
    let h4 :=
      if hget h3 "content-type" = none then hset h3 "content-type" (fallbackContentType file)
      else h3
    Response.mk 200 h4 (Body.blob obj.body)

/-- `handleIngest`: feature-flagged 501 stub. -/
def handleIngest (env : EnvCfg) : Response :=
  if env.ingestEnabled ≠ "1" then
    jsonResponse
      (JValue.jobj [("error", JValue.jstr "disabled"),
        ("message", JValue.jstr "Ingest is not enabled yet. Enable by setting INGEST_ENABLED=1 and implementing webhook verification + publish pipeline.")])
      501
  else jsonResponse (JValue.jobj [("error", JValue.jstr "not_implemented")]) 501

/-! ## The fetch handler -/

/-- `isLegacyPrefix` from `fetch`. -/
def isLegacy (path : String) : Bool :=
  path == "/catalog" || path == "/catalog/" || startsWithChars path.data ("/catalog/").data

/-- `apiPath`: strip the legacy `/catalog` prefix (keeping the slash). -/
def stripLegacy (path : String) : String :=
  if startsWithChars path.data ("/catalog/").data then ⟨path.data.drop 8⟩ else path

/-- The route the sequential matching in `fetch` selects. -/
inductive Route where
  | options
  | root
  | health
  | ingest
  | registry (kindRaw : String)
  | latestAlias (kindRaw idRaw fileRaw : String)
  | artifact (kindRaw idRaw versionRaw fileRaw : String)
  | noMatch
deriving DecidableEq

/-- The three pattern checks of `fetch`, in source order; each branch in the
source conjoins its match with `req.method === "GET"`, so a non-GET method
falls through all three. -/
def routePatterns (method apiPath : String) : Route :=
  if method = "GET" then
    match matchRegistry apiPath with
    | some k => Route.registry k
    | none =>
      match matchLatest apiPath with
      | some (a, b, f) => Route.latestAlias a b f
      | none =>
        match matchArtifact apiPath with
        | some (a, b, v, f) => Route.artifact a b v f
        | none => Route.noMatch
  else Route.noMatch

/-- The full sequential classification of `fetch`: OPTIONS, the root
redirect (which tests the unstripped path and ignores the method), health
(on the stripped path, ignoring the method), ingest (POST only), then the
three GET patterns. -/
def route (method path : String) : Route :=
  if method = "OPTIONS" then Route.options
  else if path = "/" ∨ path = "" ∨ path = "/catalog" ∨ path = "/catalog/" then Route.root
  else
    let apiPath := stripLegacy path
    if apiPath = "/_health" then Route.health
    else if apiPath = "/_ingest/github" ∧ method = "POST" then Route.ingest
    else routePatterns method apiPath

/-- `decodeURIComponent` as the handler uses it: a failure is a thrown
`URIError`. -/
def decodeParam (s : String) : Except JsError String :=
  match decodeURIComponent s with
  | some d => Except.ok d
  | none => Except.error JsError.uriErr

/-- The root redirect response. -/
def rootRedirectResp : Response :=
  Response.mk 302
    (("location", "https://okham.io/catalogs/") ::
      ("cache-control", "public, max-age=300") :: CORS_HEADERS)
    Body.empty

/-- The health payload. -/
def healthResp (env : EnvCfg) (now : String) (legacy : Bool) : Response :=
  jsonResponse
    (JValue.jobj [("ok", JValue.jbool true), ("worker", JValue.jstr env.worker),
      ("now", JValue.jstr now), ("legacy", JValue.jbool legacy)])
    200

/-- The `fetch` export: classify the request and run the selected branch.
`origin` is `url.origin` of the request, `now` the current time string. -/
def fetch (method path origin : String) (kv : String → Option String)
    (r2 : String → Option R2Object) (env : EnvCfg) (now : String) :
    Except JsError Response :=
  match route method path with
  | Route.options => Except.ok (Response.mk 204 CORS_HEADERS Body.empty)
  | Route.root => Except.ok rootRedirectResp
  | Route.health => Except.ok (healthResp env now (isLegacy path))
  | Route.ingest => Except.ok (handleIngest env)
  | Route.registry kRaw => do
    let kind ← decodeParam kRaw
    Except.ok (serveRegistry kv kind)
  | Route.latestAlias aRaw bRaw f => do
    let kind ← decodeParam aRaw
    let idv ← decodeParam bRaw
    serveLatestAlias origin kv kind idv f
  | Route.artifact aRaw bRaw vRaw f => do
    let kind ← decodeParam aRaw
    let idv ← decodeParam bRaw
    let ver ← decodeParam vRaw
    Except.ok (serveArtifact r2 kind idv ver f)
  | Route.noMatch => Except.ok notFoundResp

/-! ## Lemmas about the `keyJoin` pipeline -/

theorem backslashToSlash_eq_self (l : List Char) (h : noBackslash l = true) :
    backslashToSlash l = l := by
  induction l with
  | nil => rfl
  | cons c cs ih =>
    simp only [noBackslash, List.all_cons, Bool.and_eq_true, bne_iff_ne, ne_eq] at h
    simp only [backslashToSlash, List.map_cons, if_neg h.1]
    exact congrArg (c :: ·) (ih h.2)

theorem noDoubleSlash_tail (a : Char) (l : List Char) (h : noDoubleSlash (a :: l) = true) :
    noDoubleSlash l = true := by
  cases l with
  | nil => rfl
  | cons b r =>
    simp only [noDoubleSlash, Bool.and_eq_true] at h
    exact h.2

theorem noDoubleSlash_head (a : Char) (l : List Char) (h : noDoubleSlash (a :: l) = true)
    (ha : a = '/') : noLeadSlash l = true := by
  cases l with
  | nil => rfl
  | cons b r =>
    simp only [noDoubleSlash, Bool.and_eq_true, Bool.not_eq_true', Bool.and_eq_false_iff,
      beq_eq_false_iff_ne, ne_eq] at h
    rcases h.1 with hca | hcb
    · exact absurd ha hca
    · simpa [noLeadSlash] using hcb

theorem replaceFirstRun_eq_self (l : List Char) (h : noDoubleSlash l = true) :
    replaceFirstRun l = l := by
  induction l with
  | nil => rfl
  | cons c cs ih =>
    by_cases hc : c = '/'
    · simp only [replaceFirstRun, if_pos hc]
      have hlead := noDoubleSlash_head c cs h hc
      cases cs with
      | nil => simp [hc]
      | cons b r =>
        simp only [noLeadSlash, Bool.not_eq_true', beq_eq_false_iff_ne, ne_eq] at hlead
        simp [hc, List.dropWhile_cons, hlead]
    · simp only [replaceFirstRun, if_neg hc]
      exact congrArg (c :: ·) (ih (noDoubleSlash_tail c cs h))

theorem collapseSlashes_eq_self (l : List Char) (h : noDoubleSlash l = true) :
    collapseSlashes l = l := by
  induction l with
  | nil => rfl
  | cons a cs ih =>
    cases cs with
    | nil => rfl
    | cons b r =>
      simp only [noDoubleSlash, Bool.and_eq_true, Bool.not_eq_true', Bool.and_eq_false_iff,
        beq_eq_false_iff_ne, ne_eq] at h
      have hcond : ¬(a = '/' ∧ b = '/') := by
        rcases h.1 with h1 | h1
        · exact fun hab => h1 hab.1
        · exact fun hab => h1 hab.2
      have hrest : noDoubleSlash (b :: r) = true := by
        simpa [noDoubleSlash] using h.2
      simp only [collapseSlashes, if_neg hcond]
      exact congrArg (a :: ·) (ih hrest)

theorem stripLeadSlash_eq_self (l : List Char) (h : noLeadSlash l = true) :
    stripLeadSlash l = l := by
  cases l with
  | nil => rfl
  | cons c r =>
    simp only [noLeadSlash, Bool.not_eq_true', beq_eq_false_iff_ne, ne_eq] at h
    simp [stripLeadSlash, h]

theorem noBackslash_backslashToSlash (l : List Char) :
    noBackslash (backslashToSlash l) = true := by
  induction l with
  | nil => rfl
  | cons c cs ih =>
    simp only [backslashToSlash, List.map_cons, noBackslash, List.all_cons, Bool.and_eq_true,
      bne_iff_ne, ne_eq]
    constructor
    · by_cases hc : c = '\\' <;> simp [hc]
    · simpa [noBackslash, backslashToSlash] using ih

theorem noBackslash_dropWhile (l : List Char) (p : Char → Bool) (h : noBackslash l = true) :
    noBackslash (l.dropWhile p) = true := by
  induction l with
  | nil => rfl
  | cons c cs ih =>
    simp only [noBackslash, List.all_cons, Bool.and_eq_true] at h
    by_cases hp : p c
    · simpa [List.dropWhile, hp] using ih h.2
    · simpa [List.dropWhile, hp, noBackslash] using h

theorem noBackslash_replaceFirstRun (l : List Char) (h : noBackslash l = true) :
    noBackslash (replaceFirstRun l) = true := by
  induction l with
  | nil => rfl
  | cons c cs ih =>
    simp only [noBackslash, List.all_cons, Bool.and_eq_true] at h
    by_cases hc : c = '/'
    · have := noBackslash_dropWhile cs (· == '/') h.2
      simp only [replaceFirstRun, if_pos hc, noBackslash, List.all_cons, Bool.and_eq_true]
      exact ⟨by simp, this⟩
    · simp only [replaceFirstRun, if_neg hc, noBackslash, List.all_cons, Bool.and_eq_true]
      exact ⟨h.1, ih h.2⟩

theorem noBackslash_collapseSlashes (l : List Char) (h : noBackslash l = true) :
    noBackslash (collapseSlashes l) = true := by
  induction l with
  | nil => rfl
  | cons a cs ih =>
    cases cs with
    | nil => simpa [collapseSlashes] using h
    | cons b r =>
      simp only [noBackslash, List.all_cons, Bool.and_eq_true] at h
      have hbr : noBackslash (b :: r) = true := by
        simp [noBackslash, List.all_cons, h.2.1, h.2.2]
      by_cases hab : a = '/' ∧ b = '/'
      · simpa [collapseSlashes, if_pos hab] using ih hbr
      · simp only [collapseSlashes, if_neg hab, noBackslash, List.all_cons, Bool.and_eq_true]
        exact ⟨h.1, ih hbr⟩

theorem noBackslash_stripLeadSlash (l : List Char) (h : noBackslash l = true) :
    noBackslash (stripLeadSlash l) = true := by
  cases l with
  | nil => rfl
  | cons c r =>
    simp only [noBackslash, List.all_cons, Bool.and_eq_true] at h
    by_cases hc : c = '/'
    · simp only [stripLeadSlash, if_pos hc]
      exact h.2
    · simp only [stripLeadSlash, if_neg hc, noBackslash, List.all_cons, Bool.and_eq_true]
      exact ⟨h.1, h.2⟩

theorem collapseSlashes_cons_head (c : Char) (rest : List Char) :
    ∃ ys, collapseSlashes (c :: rest) = c :: ys := by
  induction rest generalizing c with
  | nil => exact ⟨[], rfl⟩
  | cons b r ih =>
    by_cases hab : c = '/' ∧ b = '/'
    · obtain ⟨ys, hys⟩ := ih b
      refine ⟨ys, ?_⟩
      rw [show collapseSlashes (c :: b :: r) = collapseSlashes (b :: r) by
        simp [collapseSlashes, if_pos hab], hys, hab.1, hab.2]
    · exact ⟨collapseSlashes (b :: r), by simp [collapseSlashes, if_neg hab]⟩

theorem noDoubleSlash_collapseSlashes (l : List Char) :
    noDoubleSlash (collapseSlashes l) = true := by
  induction l with
  | nil => rfl
  | cons a cs ih =>
    cases cs with
    | nil => rfl
    | cons b r =>
      by_cases hab : a = '/' ∧ b = '/'
      · simpa [collapseSlashes, if_pos hab] using ih
      · obtain ⟨ys, hys⟩ := collapseSlashes_cons_head b r
        have hnd : noDoubleSlash (b :: ys) = true := by rw [← hys]; exact ih
        simp only [collapseSlashes, if_neg hab, hys, noDoubleSlash, Bool.and_eq_true]
        refine ⟨?_, hnd⟩
        simp only [Bool.not_eq_true', Bool.and_eq_false_iff, beq_eq_false_iff_ne, ne_eq]
        by_cases ha : a = '/'
        · right; exact fun hb => hab ⟨ha, hb⟩
        · left; exact ha

theorem noDoubleSlash_stripLeadSlash (l : List Char) (h : noDoubleSlash l = true) :
    noDoubleSlash (stripLeadSlash l) = true := by
  cases l with
  | nil => rfl
  | cons c r =>
    by_cases hc : c = '/'
    · simpa [stripLeadSlash, hc] using noDoubleSlash_tail c r h
    · simpa [stripLeadSlash, hc] using h

theorem noLeadSlash_stripLeadSlash (l : List Char) (h : noDoubleSlash l = true) :
    noLeadSlash (stripLeadSlash l) = true := by
  cases l with
  | nil => rfl
  | cons c r =>
    by_cases hc : c = '/'
    · simpa [stripLeadSlash, hc] using noDoubleSlash_head c r h hc
    · simp [stripLeadSlash, hc, noLeadSlash]

/-- C3, part 2 packaged on character lists. -/
theorem keyJoinChars_canonical (l : List Char) :
    noBackslash (keyJoinChars l) = true ∧ noDoubleSlash (keyJoinChars l) = true ∧
      noLeadSlash (keyJoinChars l) = true := by
  unfold keyJoinChars
  refine ⟨?_, ?_, ?_⟩
  · exact noBackslash_stripLeadSlash _
      (noBackslash_collapseSlashes _
        (noBackslash_replaceFirstRun _ (noBackslash_backslashToSlash l)))
  · exact noDoubleSlash_stripLeadSlash _ (noDoubleSlash_collapseSlashes _)
  · exact noLeadSlash_stripLeadSlash _ (noDoubleSlash_collapseSlashes _)

/-- C3: `keyJoin` is (a) the identity on already-canonical keys, (b) always
produces a canonical key (no backslash, no leading slash, no slash run), and
hence (c) is idempotent. Totality over arbitrary segment lists is inherent
in its type. -/
theorem keyJoin_idempotent_and_canonical :
    (∀ k : String, canonicalKey k = true → keyJoin [k] = k) ∧
    (∀ parts : List String, canonicalKey (keyJoin parts) = true) ∧
    (∀ parts : List String, keyJoin [keyJoin parts] = keyJoin parts) := by
  have hcanon : ∀ parts : List String, canonicalKey (keyJoin parts) = true := by
    intro parts
    have h := keyJoinChars_canonical (joinParts (parts.map String.data))
    simp only [canonicalKey, keyJoin, Bool.and_eq_true]
    exact ⟨⟨h.1, h.2.1⟩, h.2.2⟩
  have hid : ∀ k : String, canonicalKey k = true → keyJoin [k] = k := by
    intro k hk
    simp only [canonicalKey, Bool.and_eq_true] at hk
    show (⟨keyJoinChars (joinParts [k.data])⟩ : String) = k
    have : keyJoinChars k.data = k.data := by
      unfold keyJoinChars
      rw [backslashToSlash_eq_self _ hk.1.1, replaceFirstRun_eq_self _ hk.1.2,
        collapseSlashes_eq_self _ hk.1.2, stripLeadSlash_eq_self _ ?hl]
      case hl =>
        cases hd : k.data with
        | nil => rfl
        | cons c r => rw [hd] at hk; exact hk.2
    show (⟨keyJoinChars k.data⟩ : String) = k
    rw [this]
  exact ⟨hid, hcanon, fun parts => hid _ (hcanon parts)⟩

/-- Witness for `keyJoin_idempotent_and_canonical` at concrete inputs. -/
theorem keyJoin_idempotent_and_canonical_witness :
    keyJoin [("catalog/tools/x")] = "catalog/tools/x" ∧
      canonicalKey (keyJoin [("a\\b"), "", ("c//d")]) = true := by
  constructor
  · exact keyJoin_idempotent_and_canonical.1 ("catalog/tools/x") (by decide)
  · exact keyJoin_idempotent_and_canonical.2.1 [("a\\b"), "", ("c//d")]

/-! ## Observation helpers shared by the theorems -/

/-- Status of a handler outcome, `none` when an exception escaped. -/
def excStatus : Except JsError Response → Option Nat
  | Except.ok r => some r.status
  | Except.error _ => none

/-- The `error` kind of a structured JSON error payload. -/
def errKind (r : Response) : Option String :=
  match r.body with
  | Body.jsonBody (JValue.jobj fs) =>
    match objGet fs "error" with
    | some (JValue.jstr s) => some s
    | _ => none
  | _ => none

/-- A throwaway concrete environment for closed instances. -/
def env0 : EnvCfg := EnvCfg.mk "okham-catalog-worker" "0"

/-- An empty key-value store. -/
def kv0 : String → Option String := fun _ => none

/-- An empty blob store. -/
def r20 : String → Option R2Object := fun _ => none

/-- C9: the handler is not total at the public interface — on
`GET /%E0/registry.json` the path matches the registry route, but
`decodeURIComponent` of the captured `%E0` (a lone UTF-8 lead octet) throws
`URIError`, so no response is produced. -/
theorem malformed_escape_throws :
    matchRegistry ("/%E0/registry.json") = some ("%E0") ∧
      decodeURIComponent ("%E0") = none ∧
      fetch "GET" ("/%E0/registry.json") ("https://catalog.okham.io") kv0 r20 env0 ("t") =
        Except.error JsError.uriErr := by
  exact ⟨by decide, by decide, rfl⟩

/-- C10: path-to-key resolution is not injective — the two distinct artifact
paths `/k/i/v%2Fextra/f` and `/k/i/v/extra/f` route to the Artifact Resolver
with different raw parameters, yet after percent-decoding the version the
derived storage keys coincide at `catalog/k/i/v/extra/f`, because `keyJoin`
merges the slash inside the decoded version with the segment separators. -/
theorem path_to_key_not_injective :
    route "GET" ("/k/i/v%2Fextra/f") = Route.artifact "k" "i" ("v%2Fextra") "f" ∧
      route "GET" ("/k/i/v/extra/f") = Route.artifact "k" "i" "v" ("extra/f") ∧
      decodeURIComponent ("v%2Fextra") = some ("v/extra") ∧
      keyJoin ["catalog", "k", "i", ("v/extra"), "f"] = ("catalog/k/i/v/extra/f") ∧
      keyJoin ["catalog", "k", "i", "v", ("extra/f")] = ("catalog/k/i/v/extra/f") ∧
      ("/k/i/v%2Fextra/f" : String) ≠ ("/k/i/v/extra/f") := by
  refine ⟨by decide, by decide, by decide, by decide, by decide, by decide⟩

/-! ## The fixed cross-origin header set -/

/-- The response carries all three CORS headers with their fixed values. -/
def hasCORS (r : Response) : Prop :=
  hget r.headers "access-control-allow-origin" = some "*" ∧
    hget r.headers "access-control-allow-methods" = some ("GET,POST,OPTIONS") ∧
    hget r.headers "access-control-allow-headers" =
      some ("Content-Type, Authorization, X-Hub-Signature-256")

theorem hasCORS_jsonResponse (v : JValue) (st : Nat) : hasCORS (jsonResponse v st) := by
  simp [hasCORS, jsonResponse, CORS_HEADERS, hget]

theorem exceptBindError {α β : Type} (e : JsError) (f : α → Except JsError β) :
    ((Except.error e : Except JsError α) >>= f) = Except.error e := rfl

theorem exceptBindOk {α β : Type} (x : α) (f : α → Except JsError β) :
    ((Except.ok x : Except JsError α) >>= f) = f x := rfl

theorem hasCORS_rootRedirectResp : hasCORS rootRedirectResp := by
  simp [hasCORS, rootRedirectResp, CORS_HEADERS, hget]

theorem hset_nil (n v : String) : hset [] n v = [(n, v)] := by
  simp [hset]

theorem hset_cons_ne (k w n v : String) (hs : List (String × String)) (h : ¬k = n) :
    hset ((k, w) :: hs) n v = (k, w) :: hset hs n v := by
  by_cases ha : hs.any (fun p => p.1 == n) = true
  · simp [hset, List.any_cons, ha, h]
  · simp [hset, List.any_cons, ha, h]

theorem hasCORS_serveRegistry (kv : String → Option String) (kind : String) :
    hasCORS (serveRegistry kv kind) := by
  simp only [serveRegistry]
  cases kv (keyJoin ["catalog", kind, "registry.json"]) with
  | none => exact hasCORS_jsonResponse _ _
  | some v =>
    by_cases hv : v = ""
    · simp only [hv, if_pos rfl]
      exact hasCORS_jsonResponse _ _
    · simp only [if_neg hv]
      simp [hasCORS, CORS_HEADERS, hget]

theorem hasCORS_serveLatestAlias (origin : String) (kv : String → Option String)
    (kind idv file : String) (r : Response)
    (h : serveLatestAlias origin kv kind idv file = Except.ok r) : hasCORS r := by
  simp only [serveLatestAlias] at h
  split at h
  · cases h; exact hasCORS_jsonResponse _ _
  · split at h
    · cases h; exact hasCORS_jsonResponse _ _
    · split at h
      · cases h; exact hasCORS_jsonResponse _ _
      · split at h
        · simp at h
        · split at h
          · cases h; simp [hasCORS, CORS_HEADERS, hget]
          · cases h; exact hasCORS_jsonResponse _ _

theorem hasCORS_serveArtifact (r2 : String → Option R2Object)
    (kind idv version file : String) : hasCORS (serveArtifact r2 kind idv version file) := by
  simp only [serveArtifact]
  cases r2 (keyJoin ["catalog", kind, idv, version, file]) with
  | none => exact hasCORS_jsonResponse _ _
  | some obj =>
    cases hct : obj.contentType with
    | none =>
      simp only [writeHttpMetadata, hct, CORS_HEADERS, List.foldl_cons, List.foldl_nil]
      simp [hset_nil, hset_cons_ne, hget, hasCORS]
    | some ct =>
      simp only [writeHttpMetadata, hct, CORS_HEADERS, List.foldl_cons, List.foldl_nil]
      simp [hset_nil, hset_cons_ne, hget, hasCORS]

theorem hasCORS_handleIngest (env : EnvCfg) : hasCORS (handleIngest env) := by
  unfold handleIngest
  by_cases hf : env.ingestEnabled ≠ "1"
  · rw [if_pos hf]; exact hasCORS_jsonResponse _ _
  · rw [if_neg hf]; exact hasCORS_jsonResponse _ _

theorem hasCORS_healthResp (env : EnvCfg) (now : String) (legacy : Bool) :
    hasCORS (healthResp env now legacy) :=
  hasCORS_jsonResponse _ _

/-- C7: every response the worker produces carries the fixed cross-origin
header set, and an OPTIONS request on any path returns an empty-body 204
with exactly those headers. -/
theorem cors_on_every_response :
    (∀ method path origin kv r2 env now r,
        fetch method path origin kv r2 env now = Except.ok r → hasCORS r) ∧
    (∀ path origin kv r2 env now,
        fetch "OPTIONS" path origin kv r2 env now =
          Except.ok (Response.mk 204 CORS_HEADERS Body.empty)) := by
  constructor
  · intro method path origin kv r2 env now r h
    unfold fetch at h
    cases hroute : route method path with
    | options =>
      simp only [hroute] at h
      cases h
      simp [hasCORS, CORS_HEADERS, hget]
    | root => simp only [hroute] at h; cases h; exact hasCORS_rootRedirectResp
    | health => simp only [hroute] at h; cases h; exact hasCORS_healthResp _ _ _
    | ingest => simp only [hroute] at h; cases h; exact hasCORS_handleIngest _
    | registry kRaw =>
      simp only [hroute] at h
      cases hd : decodeParam kRaw with
      | error e => simp [hd, exceptBindError] at h
      | ok kind =>
        simp only [hd, exceptBindOk] at h
        cases h
        exact hasCORS_serveRegistry _ _
    | latestAlias aRaw bRaw f =>
      simp only [hroute] at h
      cases hd1 : decodeParam aRaw with
      | error e => simp [hd1, exceptBindError] at h
      | ok kind =>
        simp only [hd1, exceptBindOk] at h
        cases hd2 : decodeParam bRaw with
        | error e => simp [hd2, exceptBindError] at h
        | ok idv =>
          simp only [hd2, exceptBindOk] at h
          exact hasCORS_serveLatestAlias _ _ _ _ _ _ h
    | artifact aRaw bRaw vRaw f =>
      simp only [hroute] at h
      cases hd1 : decodeParam aRaw with
      | error e => simp [hd1, exceptBindError] at h
      | ok kind =>
        simp only [hd1, exceptBindOk] at h
        cases hd2 : decodeParam bRaw with
        | error e => simp [hd2, exceptBindError] at h
        | ok idv =>
          simp only [hd2, exceptBindOk] at h
          cases hd3 : decodeParam vRaw with
          | error e => simp [hd3, exceptBindError] at h
          | ok ver =>
            simp only [hd3, exceptBindOk] at h
            cases h
            exact hasCORS_serveArtifact _ _ _ _ _
    | noMatch => simp only [hroute] at h; cases h; exact hasCORS_jsonResponse _ _
  · intro path origin kv r2 env now
    have : route "OPTIONS" path = Route.options := by simp [route]
    simp [fetch, this]

/-- Witness for `cors_on_every_response` at a concrete request. -/
theorem cors_on_every_response_witness :
    hasCORS notFoundResp ∧
      fetch "OPTIONS" ("/anything") ("https://catalog.okham.io") kv0 r20 env0 ("t") =
        Except.ok (Response.mk 204 CORS_HEADERS Body.empty) := by
  constructor
  · exact cors_on_every_response.1 "GET" ("/nope") ("https://catalog.okham.io") kv0 r20 env0
      ("t") notFoundResp rfl
  · exact cors_on_every_response.2 ("/anything") ("https://catalog.okham.io") kv0 r20 env0 ("t")

/-! ## The Artifact Resolver -/

theorem serveArtifact_eq_of_none_ct (r2 : String → Option R2Object)
    (kind idv version file : String) (obj : R2Object)
    (h : r2 (keyJoin ["catalog", kind, idv, version, file]) = some obj)
    (hct : obj.contentType = none) :
    serveArtifact r2 kind idv version file =
      Response.mk 200
        [("etag", obj.httpEtag),
         ("cache-control", "public, max-age=31536000, immutable"),
         ("access-control-allow-origin", "*"),
         ("access-control-allow-methods", "GET,POST,OPTIONS"),
         ("access-control-allow-headers", "Content-Type, Authorization, X-Hub-Signature-256"),
         ("content-type", fallbackContentType file)]
        (Body.blob obj.body) := by
  simp [serveArtifact, h, writeHttpMetadata, hct, CORS_HEADERS, hset_nil, hset_cons_ne, hget]

theorem serveArtifact_eq_of_some_ct (r2 : String → Option R2Object)
    (kind idv version file : String) (obj : R2Object) (ct : String)
    (h : r2 (keyJoin ["catalog", kind, idv, version, file]) = some obj)
    (hct : obj.contentType = some ct) :
    serveArtifact r2 kind idv version file =
      Response.mk 200
        [("content-type", ct),
         ("etag", obj.httpEtag),
         ("cache-control", "public, max-age=31536000, immutable"),
         ("access-control-allow-origin", "*"),
         ("access-control-allow-methods", "GET,POST,OPTIONS"),
         ("access-control-allow-headers", "Content-Type, Authorization, X-Hub-Signature-256")]
        (Body.blob obj.body) := by
  simp [serveArtifact, h, writeHttpMetadata, hct, CORS_HEADERS, hset_nil, hset_cons_ne, hget]

/-- C4: an artifact request serves 404 when the blob store has no object at
the derived key; otherwise it relays the blob with the store's etag as
strong validator, the immutable one-year cache policy, the stored content
type when one exists, and otherwise the fallback content type chosen in
strict order `.json`, then `.yaml`/`.yml`, then octet-stream. -/
theorem artifact_serving :
    notFoundResp.status = 404 ∧
    (∀ (r2 : String → Option R2Object) (kind idv version file : String),
      (r2 (keyJoin ["catalog", kind, idv, version, file]) = none →
        serveArtifact r2 kind idv version file = notFoundResp) ∧
      (∀ obj, r2 (keyJoin ["catalog", kind, idv, version, file]) = some obj →
        (serveArtifact r2 kind idv version file).status = 200 ∧
        hget (serveArtifact r2 kind idv version file).headers "etag" = some obj.httpEtag ∧
        hget (serveArtifact r2 kind idv version file).headers "cache-control" =
          some ("public, max-age=31536000, immutable") ∧
        (∀ ct, obj.contentType = some ct →
          hget (serveArtifact r2 kind idv version file).headers "content-type" = some ct) ∧
        (obj.contentType = none →
          hget (serveArtifact r2 kind idv version file).headers "content-type" =
            some (fallbackContentType file)))) ∧
    (∀ file : String,
      (endsWithChars file.data (".json").data = true →
        fallbackContentType file = "application/json; charset=utf-8") ∧
      (endsWithChars file.data (".json").data = false →
        (endsWithChars file.data (".yaml").data = true ∨
          endsWithChars file.data (".yml").data = true) →
        fallbackContentType file = "text/yaml; charset=utf-8") ∧
      (endsWithChars file.data (".json").data = false →
        endsWithChars file.data (".yaml").data = false →
        endsWithChars file.data (".yml").data = false →
        fallbackContentType file = "application/octet-stream")) := by
  refine ⟨rfl, ?_, ?_⟩
  · intro r2 kind idv version file
    refine ⟨fun h => by simp [serveArtifact, h], ?_⟩
    intro obj h
    cases hct : obj.contentType with
    | none =>
      rw [serveArtifact_eq_of_none_ct r2 kind idv version file obj h hct]
      refine ⟨rfl, by simp [hget], by simp [hget], ?_, fun _ => by simp [hget]⟩
      intro ct hcts
      exact Option.noConfusion hcts
    | some ct =>
      rw [serveArtifact_eq_of_some_ct r2 kind idv version file obj ct h hct]
      refine ⟨rfl, by simp [hget], by simp [hget], ?_, ?_⟩
      · intro ct2 hcts
        injection hcts with h2
        subst h2
        simp [hget]
      · intro hn
        exact Option.noConfusion hn
  · intro file
    refine ⟨fun hj => by simp [fallbackContentType, hj], ?_, ?_⟩
    · rintro hj (hy | hy) <;> simp [fallbackContentType, hj, hy]
    · intro hj hy hm
      simp [fallbackContentType, hj, hy, hm]

/-- Witness for `artifact_serving`: a missing `config.yaml` is 404; a
present one with no stored content type serves 200 with
`text/yaml; charset=utf-8`, the immutable cache policy and the store etag. -/
theorem artifact_serving_witness :
    serveArtifact r20 "tools" "x" ("1.0.0") ("config.yaml") = notFoundResp ∧
      (serveArtifact
        (fun key => if key = ("catalog/tools/x/1.0.0/config.yaml")
          then some (R2Object.mk "BYTES" ("W/\"abc\"") none) else none)
        "tools" "x" ("1.0.0") ("config.yaml")).status = 200 ∧
      hget (serveArtifact
        (fun key => if key = ("catalog/tools/x/1.0.0/config.yaml")
          then some (R2Object.mk "BYTES" ("W/\"abc\"") none) else none)
        "tools" "x" ("1.0.0") ("config.yaml")).headers "content-type" =
        some ("text/yaml; charset=utf-8") := by
  have hkey : keyJoin ["catalog", "tools", "x", ("1.0.0"), ("config.yaml")] =
      ("catalog/tools/x/1.0.0/config.yaml") := by decide
  have hstore : (fun key => if key = ("catalog/tools/x/1.0.0/config.yaml")
        then some (R2Object.mk "BYTES" ("W/\"abc\"") none) else none)
      (keyJoin ["catalog", "tools", "x", ("1.0.0"), ("config.yaml")]) =
      some (R2Object.mk "BYTES" ("W/\"abc\"") none) := by
    rw [hkey]
    simp
  refine ⟨(artifact_serving.2.1 r20 "tools" "x" ("1.0.0") ("config.yaml")).1 rfl, ?_, ?_⟩
  · exact ((artifact_serving.2.1 _ "tools" "x" ("1.0.0") ("config.yaml")).2
      (R2Object.mk "BYTES" ("W/\"abc\"") none) hstore).1
  · have h := ((artifact_serving.2.1
      (fun key => if key = ("catalog/tools/x/1.0.0/config.yaml")
        then some (R2Object.mk "BYTES" ("W/\"abc\"") none) else none)
      "tools" "x" ("1.0.0") ("config.yaml")).2
      (R2Object.mk "BYTES" ("W/\"abc\"") none) hstore).2.2.2.2 rfl
    rw [h]
    decide

/-! ## The Latest Resolver error paths -/

/-- C2 counterexample: a latest pointer stored as the empty string is
present in the key-value store and is not parseable JSON, yet the handler
returns 404 `not_found` (the `if (!latestJson)` falsiness check conflates it
with a missing key), not the claimed 500 `invalid_latest`. -/
theorem latest_present_unparseable_404 :
    (fun key => if key = ("catalog/k/i/latest.json") then some "" else none)
        ("catalog/k/i/latest.json") = some "" ∧
      jsonParse "" = none ∧
      fetch "GET" ("/k/i/latest/f") ("https://catalog.okham.io")
        (fun key => if key = ("catalog/k/i/latest.json") then some "" else none)
        r20 env0 ("t") = Except.ok notFoundResp ∧
      notFoundResp.status = 404 ∧
      errKind notFoundResp = some ("not_found") := by
  refine ⟨by simp, rfl, rfl, rfl, by decide⟩

/-- C2 amended: a missing key — or a stored empty string, which the falsiness
check conflates with it — yields 404 `not_found`; a nonempty unparseable
value yields the structured 500 `invalid_latest`; a parseable value whose
`version` property is absent or falsy yields the same 500 — except that a
stored top-level JSON `null` makes the `latest.version` access throw a
`TypeError` instead of producing any response. -/
theorem latest_pointer_error_paths :
    ∀ (origin : String) (kv : String → Option String) (kind idv file : String),
      (kv (keyJoin ["catalog", kind, idv, "latest.json"]) = none →
        serveLatestAlias origin kv kind idv file = Except.ok notFoundResp) ∧
      (kv (keyJoin ["catalog", kind, idv, "latest.json"]) = some "" →
        serveLatestAlias origin kv kind idv file = Except.ok notFoundResp) ∧
      (∀ s, kv (keyJoin ["catalog", kind, idv, "latest.json"]) = some s → s ≠ "" →
        jsonParse s = none →
        serveLatestAlias origin kv kind idv file =
          Except.ok (invalidLatestResp (keyJoin ["catalog", kind, idv, "latest.json"]))) ∧
      (∀ s v o, kv (keyJoin ["catalog", kind, idv, "latest.json"]) = some s → s ≠ "" →
        jsonParse s = some v → propAccess v "version" = Except.ok o → truthy o = false →
        serveLatestAlias origin kv kind idv file =
          Except.ok (invalidLatestResp (keyJoin ["catalog", kind, idv, "latest.json"]))) ∧
      (∀ s, kv (keyJoin ["catalog", kind, idv, "latest.json"]) = some s → s ≠ "" →
        jsonParse s = some JValue.jnull →
        serveLatestAlias origin kv kind idv file = Except.error JsError.typeErr) ∧
      (invalidLatestResp (keyJoin ["catalog", kind, idv, "latest.json"])).status = 500 ∧
      errKind (invalidLatestResp (keyJoin ["catalog", kind, idv, "latest.json"])) =
        some ("invalid_latest") ∧
      notFoundResp.status = 404 ∧
      errKind notFoundResp = some ("not_found") := by
  intro origin kv kind idv file
  refine ⟨?_, ?_, ?_, ?_, ?_, rfl, ?_, rfl, by decide⟩
  · intro h
    simp [serveLatestAlias, h]
  · intro h
    simp [serveLatestAlias, h]
  · intro s h hs hp
    simp [serveLatestAlias, h, hs, hp]
  · intro s v o h hs hp hpa ht
    simp [serveLatestAlias, h, hs, hp, hpa, ht]
  · intro s h hs hp
    simp [serveLatestAlias, h, hs, hp, propAccess]
  · simp [errKind, invalidLatestResp, jsonResponse, objGet]

/-- Witness for `latest_pointer_error_paths` at concrete stores: an absent
key 404s; `"not json"` and `"\x7b\x7d"` give the 500; `"null"` throws. -/
theorem latest_pointer_error_paths_witness :
    serveLatestAlias ("https://catalog.okham.io") kv0 "k" "i" "f" = Except.ok notFoundResp ∧
      serveLatestAlias ("https://catalog.okham.io")
        (fun key => if key = ("catalog/k/i/latest.json") then some ("not json") else none)
        "k" "i" "f" = Except.ok (invalidLatestResp ("catalog/k/i/latest.json")) ∧
      serveLatestAlias ("https://catalog.okham.io")
        (fun key => if key = ("catalog/k/i/latest.json") then some ("\x7b\x7d") else none)
        "k" "i" "f" = Except.ok (invalidLatestResp ("catalog/k/i/latest.json")) ∧
      serveLatestAlias ("https://catalog.okham.io")
        (fun key => if key = ("catalog/k/i/latest.json") then some ("null") else none)
        "k" "i" "f" = Except.error JsError.typeErr := by
  have hkey : keyJoin ["catalog", "k", "i", "latest.json"] = ("catalog/k/i/latest.json") := by
    decide
  refine ⟨?_, ?_, ?_, ?_⟩
  · exact (latest_pointer_error_paths ("https://catalog.okham.io") kv0 "k" "i" "f").1 rfl
  · have h := (latest_pointer_error_paths ("https://catalog.okham.io")
      (fun key => if key = ("catalog/k/i/latest.json") then some ("not json") else none)
      "k" "i" "f").2.2.1 ("not json") (by rw [hkey]; simp) (by decide) rfl
    rw [hkey] at h
    exact h
  · have h := (latest_pointer_error_paths ("https://catalog.okham.io")
      (fun key => if key = ("catalog/k/i/latest.json") then some ("\x7b\x7d") else none)
      "k" "i" "f").2.2.2.1 ("\x7b\x7d") (JValue.jobj []) none (by rw [hkey]; simp)
      (by decide) rfl rfl rfl
    rw [hkey] at h
    exact h
  · exact (latest_pointer_error_paths ("https://catalog.okham.io")
      (fun key => if key = ("catalog/k/i/latest.json") then some ("null") else none)
      "k" "i" "f").2.2.2.2.1 ("null") (by rw [hkey]; simp) (by decide) rfl

/-! ## The Latest Resolver redirect -/

theorem splitSegs_ne_nil (l : List Char) : splitSegs l ≠ [] := by
  cases l with
  | nil => simp [splitSegs]
  | cons c cs =>
    simp only [splitSegs]
    split_ifs
    · simp
    · cases h : splitSegs cs <;> simp

theorem procSegs_ne_nil (segs : List (List Char)) :
    ∀ acc, segs ≠ [] → procSegs acc segs ≠ [] := by
  induction segs with
  | nil =>
    intro acc h
    exact absurd rfl h
  | cons seg rest ih =>
    intro acc _
    cases rest with
    | nil =>
      simp only [procSegs]
      split_ifs <;> simp
    | cons s2 r2 =>
      simp only [procSegs]
      split_ifs <;> exact ih _ (by simp)

/-- Whatever the input, the serialized reference starts with a slash: the
resolved location is always the origin followed by a root-based path. -/
theorem serializeRefChars_head (l : List Char) :
    ∃ rest, serializeRefChars l = '/' :: rest := by
  unfold serializeRefChars
  dsimp only
  have hne : (match (splitQuery (splitFragment (stripTabNl (c0Trim l))).1).1 with
      | c :: cs =>
        if c = '/' ∨ c = '\\' then splitSegs cs
        else splitSegs ((splitQuery (splitFragment (stripTabNl (c0Trim l))).1).1)
      | [] => ([[]] : List (List Char))) ≠ [] := by
    cases hq : (splitQuery (splitFragment (stripTabNl (c0Trim l))).1).1 with
    | nil => simp
    | cons c cs =>
      simp only []
      split_ifs
      · exact splitSegs_ne_nil _
      · exact splitSegs_ne_nil _
  cases hp : procSegs []
      (match (splitQuery (splitFragment (stripTabNl (c0Trim l))).1).1 with
      | c :: cs =>
        if c = '/' ∨ c = '\\' then splitSegs cs
        else splitSegs ((splitQuery (splitFragment (stripTabNl (c0Trim l))).1).1)
      | [] => ([[]] : List (List Char))) with
  | nil => exact absurd hp (procSegs_ne_nil _ [] hne)
  | cons o os =>
    refine ⟨((o ++ os.flatMap (fun s => '/' :: s)) ++
      (match (splitQuery (splitFragment (stripTabNl (c0Trim l))).1).2 with
       | some qs => '?' :: encodeWith inSpecialQuerySet qs
       | none => [])) ++
      (match (splitFragment (stripTabNl (c0Trim l))).2 with
       | some fs => '#' :: encodeWith inFragmentSet fs
       | none => []), ?_⟩
    simp

/-- C1: whenever a GET request routes to the Latest Resolver (with or
without the legacy `/catalog` prefix — the route works on the stripped path)
and the pointer key holds a JSON object whose `version` is a non-empty
string `v`, the response is a 302 whose location is the URL
`/enc(kind)/enc(id)/enc(v)/file` resolved (per the WHATWG model
`newURLString`) against the request's own origin — so the location is
always that origin followed by a root-based path, never the legacy-prefixed
path — with `kind`, `id` and `v` percent-encoded individually and cache
directive `public, max-age=30`. In particular `kind="tools"`, `id="x"`,
`file="pkg.tar.gz"` with pointer version `2.1.0` yields location exactly
`origin ++ "/tools/x/2.1.0/pkg.tar.gz"` on both the plain and the
legacy-prefixed path, and a pointer version `".."` yields the
dot-segment-normalized `origin ++ "/tools/pkg.tar.gz"`. -/
theorem latest_redirect_canonical :
    (∀ (path origin : String) (kv : String → Option String) (r2 : String → Option R2Object)
        (env : EnvCfg) (now : String) (a b f kind idv s : String)
        (fields : List (String × JValue)) (v : String),
      route "GET" path = Route.latestAlias a b f →
      decodeURIComponent a = some kind →
      decodeURIComponent b = some idv →
      kv (keyJoin ["catalog", kind, idv, "latest.json"]) = some s →
      jsonParse s = some (JValue.jobj fields) →
      objGet fields "version" = some (JValue.jstr v) →
      v ≠ "" →
      fetch "GET" path origin kv r2 env now =
        Except.ok (Response.mk 302
          (("location", newURLString ("/" ++ encodeURIComponent kind ++ "/" ++
              encodeURIComponent idv ++ "/" ++ encodeURIComponent v ++ "/" ++ f) origin) ::
            ("cache-control", "public, max-age=30") :: CORS_HEADERS)
          Body.empty)) ∧
    (∀ p o : String, newURLString p o = o ++ serializeRef p ∧
      startsWithChars (serializeRef p).data ['/'] = true) ∧
    (∀ (origin : String) (r2 : String → Option R2Object) (env : EnvCfg) (now : String),
      fetch "GET" ("/tools/x/latest/pkg.tar.gz") origin
          (fun key => if key = ("catalog/tools/x/latest.json")
            then some ("\x7b\"version\":\"2.1.0\"\x7d") else none) r2 env now =
        Except.ok (Response.mk 302
          (("location", origin ++ ("/tools/x/2.1.0/pkg.tar.gz")) ::
            ("cache-control", "public, max-age=30") :: CORS_HEADERS)
          Body.empty) ∧
      fetch "GET" ("/catalog/tools/x/latest/pkg.tar.gz") origin
          (fun key => if key = ("catalog/tools/x/latest.json")
            then some ("\x7b\"version\":\"2.1.0\"\x7d") else none) r2 env now =
        Except.ok (Response.mk 302
          (("location", origin ++ ("/tools/x/2.1.0/pkg.tar.gz")) ::
            ("cache-control", "public, max-age=30") :: CORS_HEADERS)
          Body.empty) ∧
      fetch "GET" ("/tools/x/latest/pkg.tar.gz") origin
          (fun key => if key = ("catalog/tools/x/latest.json")
            then some ("\x7b\"version\":\"..\"\x7d") else none) r2 env now =
        Except.ok (Response.mk 302
          (("location", origin ++ ("/tools/pkg.tar.gz")) ::
            ("cache-control", "public, max-age=30") :: CORS_HEADERS)
          Body.empty)) := by
  have main : ∀ (path origin : String) (kv : String → Option String)
      (r2 : String → Option R2Object) (env : EnvCfg) (now : String)
      (a b f kind idv s : String) (fields : List (String × JValue)) (v : String),
      route "GET" path = Route.latestAlias a b f →
      decodeURIComponent a = some kind →
      decodeURIComponent b = some idv →
      kv (keyJoin ["catalog", kind, idv, "latest.json"]) = some s →
      jsonParse s = some (JValue.jobj fields) →
      objGet fields "version" = some (JValue.jstr v) →
      v ≠ "" →
      fetch "GET" path origin kv r2 env now =
        Except.ok (Response.mk 302
          (("location", newURLString ("/" ++ encodeURIComponent kind ++ "/" ++
              encodeURIComponent idv ++ "/" ++ encodeURIComponent v ++ "/" ++ f) origin) ::
            ("cache-control", "public, max-age=30") :: CORS_HEADERS)
          Body.empty) := by
    intro path origin kv r2 env now a b f kind idv s fields v hroute hda hdb hkv hp hv hne
    have hs : s ≠ "" := by
      intro he
      rw [he] at hp
      exact Option.noConfusion hp
    have ht : truthy (some (JValue.jstr v)) = true := by simp [truthy, hne]
    simp only [fetch, hroute, decodeParam, hda, hdb, exceptBindOk, serveLatestAlias, hkv,
      if_neg hs, hp, propAccess, hv, ht, if_pos]
    rfl
  refine ⟨main, ?_, ?_⟩
  · intro p o
    refine ⟨rfl, ?_⟩
    obtain ⟨rest, hrest⟩ := serializeRefChars_head p.data
    rw [show (serializeRef p).data = serializeRefChars p.data from rfl, hrest]
    simp [startsWithChars]
  · intro origin r2 env now
    have hkey : keyJoin ["catalog", "tools", "x", "latest.json"] =
        ("catalog/tools/x/latest.json") := by decide
    have hser1 : serializeRef ("/" ++ encodeURIComponent "tools" ++ "/" ++
        encodeURIComponent "x" ++ "/" ++ encodeURIComponent ("2.1.0") ++ "/" ++
        ("pkg.tar.gz")) = ("/tools/x/2.1.0/pkg.tar.gz") := by decide
    have hser2 : serializeRef ("/" ++ encodeURIComponent "tools" ++ "/" ++
        encodeURIComponent "x" ++ "/" ++ encodeURIComponent ("..") ++ "/" ++
        ("pkg.tar.gz")) = ("/tools/pkg.tar.gz") := by decide
    have hloc1 : newURLString ("/" ++ encodeURIComponent "tools" ++ "/" ++
        encodeURIComponent "x" ++ "/" ++ encodeURIComponent ("2.1.0") ++ "/" ++
        ("pkg.tar.gz")) origin = origin ++ ("/tools/x/2.1.0/pkg.tar.gz") := by
      show origin ++ serializeRef _ = _
      rw [hser1]
    have hloc2 : newURLString ("/" ++ encodeURIComponent "tools" ++ "/" ++
        encodeURIComponent "x" ++ "/" ++ encodeURIComponent ("..") ++ "/" ++
        ("pkg.tar.gz")) origin = origin ++ ("/tools/pkg.tar.gz") := by
      show origin ++ serializeRef _ = _
      rw [hser2]
    refine ⟨?_, ?_, ?_⟩
    · have h := main ("/tools/x/latest/pkg.tar.gz") origin
        (fun key => if key = ("catalog/tools/x/latest.json")
          then some ("\x7b\"version\":\"2.1.0\"\x7d") else none) r2 env now
        "tools" "x" ("pkg.tar.gz") "tools" "x" ("\x7b\"version\":\"2.1.0\"\x7d")
        [("version", JValue.jstr ("2.1.0"))] ("2.1.0")
        (by decide) (by decide) (by decide) (by rw [hkey]; simp) rfl rfl (by decide)
      rw [hloc1] at h
      exact h
    · have h := main ("/catalog/tools/x/latest/pkg.tar.gz") origin
        (fun key => if key = ("catalog/tools/x/latest.json")
          then some ("\x7b\"version\":\"2.1.0\"\x7d") else none) r2 env now
        "tools" "x" ("pkg.tar.gz") "tools" "x" ("\x7b\"version\":\"2.1.0\"\x7d")
        [("version", JValue.jstr ("2.1.0"))] ("2.1.0")
        (by decide) (by decide) (by decide) (by rw [hkey]; simp) rfl rfl (by decide)
      rw [hloc1] at h
      exact h
    · have h := main ("/tools/x/latest/pkg.tar.gz") origin
        (fun key => if key = ("catalog/tools/x/latest.json")
          then some ("\x7b\"version\":\"..\"\x7d") else none) r2 env now
        "tools" "x" ("pkg.tar.gz") "tools" "x" ("\x7b\"version\":\"..\"\x7d")
        [("version", JValue.jstr (".."))] ("..")
        (by decide) (by decide) (by decide) (by rw [hkey]; simp) rfl rfl (by decide)
      rw [hloc2] at h
      exact h

/-- Witness for `latest_redirect_canonical` at a fully concrete request. -/
theorem latest_redirect_canonical_witness :
    fetch "GET" ("/tools/x/latest/pkg.tar.gz") ("https://catalog.okham.io")
        (fun key => if key = ("catalog/tools/x/latest.json")
          then some ("\x7b\"version\":\"2.1.0\"\x7d") else none) r20 env0 ("t") =
      Except.ok (Response.mk 302
        (("location", ("https://catalog.okham.io" : String) ++ ("/tools/x/2.1.0/pkg.tar.gz")) ::
          ("cache-control", "public, max-age=30") :: CORS_HEADERS)
        Body.empty) :=
  (latest_redirect_canonical.2.2 ("https://catalog.okham.io") r20 env0 ("t")).1

/-! ## Parameter decoding at dispatch -/

/-- C5 counterexample: on `GET /k/i/v/f%41` the Artifact Resolver keeps the
raw file segment `f%41` in the storage key: a blob store holding only the
percent-decoded key `catalog/k/i/v/fA` yields 404 while one holding the raw
key `catalog/k/i/v/f%41` yields 200, even though
`decodeURIComponent "f%41" = "fA"` — so the `file` parameter is not
percent-decoded before use. -/
theorem file_param_used_raw :
    excStatus (fetch "GET" ("/k/i/v/f%41") ("https://catalog.okham.io") kv0
      (fun key => if key = ("catalog/k/i/v/fA")
        then some (R2Object.mk "B" "E" none) else none) env0 ("t")) = some 404 ∧
      excStatus (fetch "GET" ("/k/i/v/f%41") ("https://catalog.okham.io") kv0
        (fun key => if key = ("catalog/k/i/v/f%41")
          then some (R2Object.mk "B" "E" none) else none) env0 ("t")) = some 200 ∧
      decodeURIComponent ("f%41") = some "fA" ∧
      ("f%41" : String) ≠ "fA" := by
  refine ⟨rfl, rfl, by decide, by decide⟩

/-- C5 amended: of the extracted route parameters, `kind`, `id` and
`version` are percent-decoded before the resolvers receive them, while
`file` is passed through raw (undecoded) to both the Latest and the Artifact
Resolver; route matching itself operates on the raw path. -/
theorem params_decoded_file_raw :
    ∀ (method path origin : String) (kv : String → Option String)
      (r2 : String → Option R2Object) (env : EnvCfg) (now : String),
      (∀ kRaw kind, route method path = Route.registry kRaw →
        decodeURIComponent kRaw = some kind →
        fetch method path origin kv r2 env now = Except.ok (serveRegistry kv kind)) ∧
      (∀ a b f kind idv, route method path = Route.latestAlias a b f →
        decodeURIComponent a = some kind → decodeURIComponent b = some idv →
        fetch method path origin kv r2 env now = serveLatestAlias origin kv kind idv f) ∧
      (∀ a b vr f kind idv ver, route method path = Route.artifact a b vr f →
        decodeURIComponent a = some kind → decodeURIComponent b = some idv →
        decodeURIComponent vr = some ver →
        fetch method path origin kv r2 env now =
          Except.ok (serveArtifact r2 kind idv ver f)) := by
  intro method path origin kv r2 env now
  refine ⟨?_, ?_, ?_⟩
  · intro kRaw kind hroute hd
    simp only [fetch, hroute, decodeParam, hd, exceptBindOk]
  · intro a b f kind idv hroute hda hdb
    simp only [fetch, hroute, decodeParam, hda, hdb, exceptBindOk]
  · intro a b vr f kind idv ver hroute hda hdb hdv
    simp only [fetch, hroute, decodeParam, hda, hdb, hdv, exceptBindOk]

/-- Witness for `params_decoded_file_raw`: a concrete artifact dispatch in
which the kind is decoded and the file kept raw. -/
theorem params_decoded_file_raw_witness :
    fetch "GET" ("/k%20a/i/v/f%41") ("https://catalog.okham.io") kv0 r20 env0 ("t") =
      Except.ok (serveArtifact r20 ("k a") "i" "v" ("f%41")) :=
  (params_decoded_file_raw "GET" ("/k%20a/i/v/f%41") ("https://catalog.okham.io")
      kv0 r20 env0 ("t")).2.2 ("k%20a") "i" "v" ("f%41") ("k a") "i" "v"
    (by decide) (by decide) (by decide) (by decide)

/-! ## Route matching order -/

theorem matchRegistry_imp_matchLatest_none (s k : String)
    (h : matchRegistry s = some k) : matchLatest s = none := by
  unfold matchRegistry at h
  unfold matchLatest
  revert h
  cases hd : s.data with
  | nil =>
    intro h
    simp only [afterSeg] at h
    exact Option.noConfusion h
  | cons c cs =>
    intro h
    simp only [afterSeg] at h ⊢
    by_cases hc : c = '/'
    · subst hc
      by_cases hcond : (!(takeSeg cs).1.isEmpty) = true ∧
          (takeSeg cs).2 = ("/registry.json").data
      · rw [hcond.2]
        rfl
      · rw [if_neg hcond] at h
        exact Option.noConfusion h
    · rw [if_neg hc] at h
      exact Option.noConfusion h

/-- C6: matching is ordered and exclusive — a GET whose stripped path fits
the registry shape dispatches the Registry Resolver; one fitting the
latest-alias shape dispatches the Latest Resolver (never the Artifact
Resolver, though the path also fits the artifact shape with
`version = "latest"`); and the Artifact Resolver handles a path only when
neither more specific pattern matched. -/
theorem routing_ordered_exclusive :
    ∀ path : String,
      (∀ k, matchRegistry (stripLegacy path) = some k →
        route "GET" path = Route.registry k) ∧
      (∀ a b f, matchLatest (stripLegacy path) = some (a, b, f) →
        route "GET" path = Route.latestAlias a b f) ∧
      (∀ a b v f, route "GET" path = Route.artifact a b v f →
        matchRegistry (stripLegacy path) = none ∧
        matchLatest (stripLegacy path) = none ∧
        matchArtifact (stripLegacy path) = some (a, b, v, f)) := by
  intro path
  have hing : ¬(stripLegacy path = ("/_ingest/github") ∧ ("GET" : String) = "POST") :=
    fun h => absurd h.2 (by decide)
  refine ⟨?_, ?_, ?_⟩
  · intro k hm
    have hroot : ¬(path = "/" ∨ path = "" ∨ path = ("/catalog") ∨ path = ("/catalog/")) := by
      rintro (h | h | h | h)
      · rw [h, show stripLegacy "/" = ("/") from by decide] at hm
        exact Option.noConfusion hm
      · rw [h, show stripLegacy "" = ("") from by decide] at hm
        exact Option.noConfusion hm
      · rw [h, show stripLegacy ("/catalog") = ("/catalog") from by decide] at hm
        exact Option.noConfusion hm
      · rw [h, show stripLegacy ("/catalog/") = ("/") from by decide] at hm
        exact Option.noConfusion hm
    have hhealth : stripLegacy path ≠ ("/_health") := by
      intro he
      rw [he] at hm
      exact Option.noConfusion hm
    simp only [route, if_neg (by decide : ¬("GET" : String) = "OPTIONS"), if_neg hroot,
      if_neg hhealth, if_neg hing, routePatterns, if_pos rfl, hm]
    rfl
  · intro a b f hm
    have hroot : ¬(path = "/" ∨ path = "" ∨ path = ("/catalog") ∨ path = ("/catalog/")) := by
      rintro (h | h | h | h)
      · rw [h, show stripLegacy "/" = ("/") from by decide] at hm
        exact Option.noConfusion hm
      · rw [h, show stripLegacy "" = ("") from by decide] at hm
        exact Option.noConfusion hm
      · rw [h, show stripLegacy ("/catalog") = ("/catalog") from by decide] at hm
        exact Option.noConfusion hm
      · rw [h, show stripLegacy ("/catalog/") = ("/") from by decide] at hm
        exact Option.noConfusion hm
    have hhealth : stripLegacy path ≠ ("/_health") := by
      intro he
      rw [he] at hm
      exact Option.noConfusion hm
    have hreg : matchRegistry (stripLegacy path) = none := by
      cases hreg : matchRegistry (stripLegacy path) with
      | none => rfl
      | some k2 =>
        rw [matchRegistry_imp_matchLatest_none _ _ hreg] at hm
        exact Option.noConfusion hm
    simp only [route, if_neg (by decide : ¬("GET" : String) = "OPTIONS"), if_neg hroot,
      if_neg hhealth, if_neg hing, routePatterns, if_pos rfl, hreg, hm]
    rfl
  · intro a b v f hr
    simp only [route, if_neg (by decide : ¬("GET" : String) = "OPTIONS")] at hr
    by_cases hroot : path = "/" ∨ path = "" ∨ path = ("/catalog") ∨ path = ("/catalog/")
    · rw [if_pos hroot] at hr
      exact Route.noConfusion hr
    · rw [if_neg hroot] at hr
      by_cases hhealth : stripLegacy path = ("/_health")
      · rw [if_pos hhealth] at hr
        exact Route.noConfusion hr
      · rw [if_neg hhealth, if_neg hing] at hr
        simp only [routePatterns, if_pos rfl] at hr
        cases hreg : matchRegistry (stripLegacy path) with
        | some k2 =>
          rw [hreg] at hr
          exact Route.noConfusion hr
        | none =>
          rw [hreg] at hr
          cases hlat : matchLatest (stripLegacy path) with
          | some p =>
            obtain ⟨a2, b2, f2⟩ := p
            rw [hlat] at hr
            exact Route.noConfusion hr
          | none =>
            rw [hlat] at hr
            cases hart : matchArtifact (stripLegacy path) with
            | some q =>
              obtain ⟨a2, b2, v2, f2⟩ := q
              rw [hart] at hr
              cases hr
              exact ⟨rfl, rfl, rfl⟩
            | none =>
              rw [hart] at hr
              exact Route.noConfusion hr

/-- Witness for `routing_ordered_exclusive` at concrete paths of each
shape. -/
theorem routing_ordered_exclusive_witness :
    route "GET" ("/tools/registry.json") = Route.registry "tools" ∧
      route "GET" ("/tools/x/latest/pkg.tar.gz") = Route.latestAlias "tools" "x" ("pkg.tar.gz") ∧
      matchArtifact ("/tools/x/latest/pkg.tar.gz") =
        some ("tools", "x", "latest", ("pkg.tar.gz")) ∧
      (route "GET" ("/a/b/c/d") = Route.artifact "a" "b" "c" "d" →
        matchRegistry ("/a/b/c/d") = none ∧ matchLatest ("/a/b/c/d") = none ∧
          matchArtifact ("/a/b/c/d") = some ("a", "b", "c", "d")) := by
  refine ⟨?_, ?_, by decide, ?_⟩
  · exact (routing_ordered_exclusive ("/tools/registry.json")).1 "tools" (by decide)
  · exact (routing_ordered_exclusive ("/tools/x/latest/pkg.tar.gz")).2.1 "tools" "x"
      ("pkg.tar.gz") (by decide)
  · intro h
    have := (routing_ordered_exclusive ("/a/b/c/d")).2.2 "a" "b" "c" "d" h
    rw [show stripLegacy ("/a/b/c/d") = ("/a/b/c/d") from by decide] at this
    exact this

/-! ## Method handling on the non-pattern routes -/

/-- C8 counterexample: the root-redirect branch of `fetch` never checks the
method, so `POST /` is answered with the 302 root redirect — not the claimed
404; the health branch likewise answers `POST /_health` with 200. -/
theorem post_root_not_404 :
    excStatus (fetch "POST" "/" ("https://catalog.okham.io") kv0 r20 env0 ("t")) = some 302 ∧
      excStatus (fetch "POST" ("/_health") ("https://catalog.okham.io") kv0 r20 env0 ("t")) =
        some 200 :=
  ⟨rfl, rfl⟩

/-- C8 amended: the root-redirect paths and `/_health` are served for every
non-OPTIONS method (the code never checks the method there), and every other
request whose method/path combination matches no listed row returns 404 —
both any non-GET, non-OPTIONS method that is not an ingest POST and hits
neither the root paths nor the health path, and any GET whose stripped path
matches none of the three route patterns. -/
theorem unmatched_method_path_404 :
    ∀ (method path origin : String) (kv : String → Option String)
      (r2 : String → Option R2Object) (env : EnvCfg) (now : String),
      method ≠ "OPTIONS" →
      ((path = "/" ∨ path = "" ∨ path = ("/catalog") ∨ path = ("/catalog/")) →
        fetch method path origin kv r2 env now = Except.ok rootRedirectResp ∧
        rootRedirectResp.status = 302) ∧
      (¬(path = "/" ∨ path = "" ∨ path = ("/catalog") ∨ path = ("/catalog/")) →
        stripLegacy path = ("/_health") →
        fetch method path origin kv r2 env now =
          Except.ok (healthResp env now (isLegacy path)) ∧
        (healthResp env now (isLegacy path)).status = 200) ∧
      (method ≠ "GET" →
        ¬(path = "/" ∨ path = "" ∨ path = ("/catalog") ∨ path = ("/catalog/")) →
        stripLegacy path ≠ ("/_health") →
        ¬(stripLegacy path = ("/_ingest/github") ∧ method = "POST") →
        fetch method path origin kv r2 env now = Except.ok notFoundResp ∧
        notFoundResp.status = 404) ∧
      (method = "GET" →
        ¬(path = "/" ∨ path = "" ∨ path = ("/catalog") ∨ path = ("/catalog/")) →
        stripLegacy path ≠ ("/_health") →
        matchRegistry (stripLegacy path) = none →
        matchLatest (stripLegacy path) = none →
        matchArtifact (stripLegacy path) = none →
        fetch method path origin kv r2 env now = Except.ok notFoundResp ∧
        notFoundResp.status = 404) := by
  intro method path origin kv r2 env now hmo
  refine ⟨?_, ?_, ?_, ?_⟩
  · intro hroot
    have hr : route method path = Route.root := by
      simp only [route, if_neg hmo, if_pos hroot]
    exact ⟨by simp only [fetch, hr], rfl⟩
  · intro hroot hh
    have hr : route method path = Route.health := by
      simp only [route, if_neg hmo, if_neg hroot, if_pos hh]
    exact ⟨by simp only [fetch, hr], rfl⟩
  · intro hmg hroot hh hing
    have hr : route method path = Route.noMatch := by
      simp only [route, if_neg hmo, if_neg hroot, if_neg hh, if_neg hing, routePatterns,
        if_neg hmg]
    exact ⟨by simp only [fetch, hr], rfl⟩
  · intro hmg hroot hh hreg hlat hart
    subst hmg
    have hr : route "GET" path = Route.noMatch := by
      simp only [route, if_neg hmo, if_neg hroot, if_neg hh,
        if_neg (fun h => absurd h.2 (by decide) :
          ¬(stripLegacy path = ("/_ingest/github") ∧ ("GET" : String) = "POST")),
        routePatterns, if_pos rfl, hreg, hlat, hart]
      rfl
    exact ⟨by simp only [fetch, hr], rfl⟩

/-- Witness for `unmatched_method_path_404` with methods `DELETE` and
`GET`. -/
theorem unmatched_method_path_404_witness :
    fetch "DELETE" "/" ("https://catalog.okham.io") kv0 r20 env0 ("t") =
      Except.ok rootRedirectResp ∧
      fetch "DELETE" ("/a/b/c/d") ("https://catalog.okham.io") kv0 r20 env0 ("t") =
        Except.ok notFoundResp ∧
      fetch "GET" ("/a") ("https://catalog.okham.io") kv0 r20 env0 ("t") =
        Except.ok notFoundResp := by
  refine ⟨?_, ?_, ?_⟩
  · exact ((unmatched_method_path_404 "DELETE" "/" ("https://catalog.okham.io") kv0 r20
      env0 ("t") (by decide)).1 (Or.inl rfl)).1
  · exact ((unmatched_method_path_404 "DELETE" ("/a/b/c/d") ("https://catalog.okham.io")
      kv0 r20 env0 ("t") (by decide)).2.2.1 (by decide) (by decide) (by decide)
      (fun h => absurd h.2 (by decide))).1
  · exact ((unmatched_method_path_404 "GET" ("/a") ("https://catalog.okham.io")
      kv0 r20 env0 ("t") (by decide)).2.2.2 rfl (by decide) (by decide)
      (by decide) (by decide) (by decide)).1

end CatalogWorker
